import Mathlib

/-!
Verification of the red-teaming Copilot Studio agent bridge.

Shallow embedding of the two source files:
  * `src/targets/mcs_agent_callback.py` — the target adapter
    (`McsAgentCallbackTarget.create_callback`'s inner `mcs_agent_callback`);
  * `src/red_team_scan.py` — configuration loading with environment-variable
    substitution, strategy parsing, target construction and `RedTeam`
    construction.

External collaborators (the Copilot Studio client, the `AttackStrategy` /
`RiskCategory` enumerations of the evaluation engine, the filesystem and the
process environment) are modelled as explicit parameters or small inductive
types, so that the adapter's and orchestrator's control flow can be stated
and proved exactly as written in the source.
-/

/-! ## Data model of the adapter (`src/targets/mcs_agent_callback.py`) -/

/-- A conversation turn as handed to the callback by the engine: an object
with `role` and `content` attributes (the source immediately re-packs them
into `{"role": ..., "content": ...}` dictionaries). -/
structure Message where
  role : String
  content : String
deriving DecidableEq, Repr

/-- The `type` tag of a response activity (`microsoft.agents.core.models.ActivityTypes`).
Only `message` matters to the adapter; other tags are dropped by the filter. -/
inductive ActivityTy where
  | message
  | typing
  | event
  | other (tag : String)
deriving DecidableEq, Repr

/-- One response event returned by `ask_question_async`. `text` is `Option`al
because in Python a non-message activity (or a malformed message activity)
may carry `text = None`; joining a `None` raises a `TypeError` inside the
guarded region. -/
structure Activity where
  ty : ActivityTy
  text : Option String
deriving DecidableEq, Repr

/-- The observable behaviour of one pass through the guarded region's
external calls: building `McsConnectionSettings`, constructing
`McsCopilotClient`, `start_conversation_async`, and `ask_question_async`.
Each step may raise (carrying the Python error text), or the ask may
succeed with a list of response activities. -/
inductive BackendBehavior where
  | settingsRaise (e : String)
  | clientRaise (e : String)
  | startRaise (e : String)
  | askRaise (e : String)
  | ok (activities : List Activity)
deriving DecidableEq, Repr

/-- The response dictionary built by the adapter. `content` is an `Option`
because the Python dictionary value may in principle be `None` — the final
defensive guard in the source checks exactly this. -/
structure FormattedResponse where
  role : String
  content : Option String
deriving DecidableEq, Repr

/-- The adapter's return value: `{"messages": [formatted_response]}`. -/
structure McsCallbackResult where
  messages : List FormattedResponse
deriving DecidableEq, Repr

/-- `"".join(activity.text for activity in activities if activity.type == ActivityTypes.message)`.
The generator filters on the `message` tag first; `join` then concatenates
the `text` fields in order and raises `TypeError` at the first message-typed
activity whose `text` is `None`. -/
def joinTexts : List Activity → Except String String
  | [] => .ok ""
  | a :: rest =>
    if a.ty = ActivityTy.message then
      match a.text with
      | none => .error "TypeError: sequence item: expected str instance, NoneType found"
      | some t => (joinTexts rest).map (fun s => t ++ s)
    else joinTexts rest

/-- The fixed fallback produced by the `except` handler. -/
def errorFallback : String := "I encountered an error and couldn't process your request."

/-- The fixed fallback substituted when the concatenated content is empty. -/
def emptyFallback : String := "I cannot provide a response to this request."

/-- The fixed fallback of the final defensive `None` guard. -/
def noResponseFallback : String := "No response available."

/-- The `try`/`except` block of `mcs_agent_callback`: build settings, build
the client, open the session, ask the question, concatenate message-typed
texts, substitute `emptyFallback` when the content is empty (the source also
checks `content is None`, which is unreachable since `str.join` always
returns a string), and on any raise fall back to `errorFallback`. -/
def respond_core (latest_message : String) (backend : BackendBehavior) : FormattedResponse :=
  match backend with
  | .settingsRaise _ => { role := "assistant", content := some errorFallback }
  | .clientRaise _ => { role := "assistant", content := some errorFallback }
  | .startRaise _ => { role := "assistant", content := some errorFallback }
  | .askRaise _ => { role := "assistant", content := some errorFallback }
  | .ok activities =>
    match joinTexts activities with
    | .error _ => { role := "assistant", content := some errorFallback }
    | .ok content =>
      let content := if content = "" then emptyFallback else content
      { role := "assistant", content := some content }

/-- `if formatted_response.get("content") is None: ... = "No response available."` -/
def ensure_content (r : FormattedResponse) : FormattedResponse :=
  if r.content = none then { r with content := some noResponseFallback } else r

/-- The inner async callback `mcs_agent_callback(messages, ...)`. The
re-packing of `messages` and the `[-1]` indexing happen before the `try`
block, so an empty `messages` raises `IndexError` to the caller; from the
settings construction onward, everything is guarded. -/
def mcs_agent_callback (messages : List Message) (backend : BackendBehavior) :
    Except String McsCallbackResult :=
  let messages_list := messages.map (fun m => (m.role, m.content))
  match messages_list.getLast? with
  | none => .error "IndexError: list index out of range"
  | some last =>
    let latest_message := last.2
    let formatted_response := respond_core latest_message backend
    let formatted_response := ensure_content formatted_response
    .ok { messages := [formatted_response] }

/-- A backend behaviour under which some step strictly inside the guarded
region raises: one of the four external calls raises, or the
extraction/concatenation of the response content raises. -/
def guardedRegionRaises : BackendBehavior → Bool
  | .settingsRaise _ => true
  | .clientRaise _ => true
  | .startRaise _ => true
  | .askRaise _ => true
  | .ok activities =>
    match joinTexts activities with
    | .error _ => true
    | .ok _ => false

/-- Reference aggregation: the concatenation, in receipt order, of the text
fields of exactly the message-typed activities. -/
def concatMessageTexts (activities : List Activity) : String :=
  String.join ((activities.filter (fun a => a.ty = ActivityTy.message)).filterMap (fun a => a.text))

/-! ## Helper lemmas about the adapter -/

theorem joinStr_cons (s : String) (l : List String) :
    String.join (s :: l) = s ++ String.join l := by
  simp only [String.join_eq, List.map_cons, List.flatten_cons]
  rfl

theorem joinTexts_ok (acts : List Activity)
    (h : ∀ a ∈ acts, a.ty = ActivityTy.message → a.text ≠ none) :
    joinTexts acts = .ok (concatMessageTexts acts) := by
  induction acts with
  | nil => rfl
  | cons a rest ih =>
    have hrest : ∀ x ∈ rest, x.ty = ActivityTy.message → x.text ≠ none :=
      fun x hx => h x (List.mem_cons_of_mem _ hx)
    by_cases hty : a.ty = ActivityTy.message
    · cases htext : a.text with
      | none => exact absurd htext (h a (List.mem_cons_self _ _) hty)
      | some t =>
        simp only [joinTexts, hty, if_true, htext, ih hrest, Except.map]
        simp [concatMessageTexts, List.filter_cons, hty, htext, joinStr_cons]
    · simp only [joinTexts, hty, if_false, ih hrest]
      simp [concatMessageTexts, List.filter_cons, hty]

theorem respond_core_raises (q : String) (b : BackendBehavior)
    (h : guardedRegionRaises b = true) :
    respond_core q b = { role := "assistant", content := some errorFallback } := by
  cases b with
  | settingsRaise e => rfl
  | clientRaise e => rfl
  | startRaise e => rfl
  | askRaise e => rfl
  | ok acts =>
    have hfail : ∃ e, joinTexts acts = .error e := by
      simp only [guardedRegionRaises] at h
      cases hj : joinTexts acts with
      | error e => exact ⟨e, rfl⟩
      | ok c => rw [hj] at h; simp at h
    obtain ⟨e, he⟩ := hfail
    simp [respond_core, he]

theorem respond_core_shape (q : String) (b : BackendBehavior) :
    ∃ t : String, respond_core q b = { role := "assistant", content := some t } := by
  cases b with
  | settingsRaise e => exact ⟨errorFallback, rfl⟩
  | clientRaise e => exact ⟨errorFallback, rfl⟩
  | startRaise e => exact ⟨errorFallback, rfl⟩
  | askRaise e => exact ⟨errorFallback, rfl⟩
  | ok acts =>
    cases hj : joinTexts acts with
    | error e => exact ⟨errorFallback, by simp [respond_core, hj]⟩
    | ok c => exact ⟨if c = "" then emptyFallback else c, by simp [respond_core, hj]⟩

theorem ensure_content_of_some (r : FormattedResponse) (t : String) (h : r.content = some t) :
    ensure_content r = r := by
  unfold ensure_content
  simp [h]

theorem mcs_agent_callback_eq (messages : List Message) (backend : BackendBehavior)
    (hne : messages ≠ []) :
    ∃ last : String × String,
      (messages.map (fun m => (m.role, m.content))).getLast? = some last ∧
      mcs_agent_callback messages backend =
        .ok { messages := [ensure_content (respond_core last.2 backend)] } := by
  have hmapne : messages.map (fun m => (m.role, m.content)) ≠ [] := by
    simpa using hne
  cases hl : (messages.map fun m => (m.role, m.content)).getLast? with
  | none =>
    rw [List.getLast?_eq_none_iff] at hl
    exact absurd hl hmapne
  | some last =>
    refine ⟨last, rfl, ?_⟩
    simp only [mcs_agent_callback, hl]

/-! ## Claims about the adapter -/

/-- C1: for every non-empty conversation-turn sequence, if any step inside the
adapter's guarded region (settings construction, client creation, session
open, ask, or content extraction/concatenation) raises, the adapter call
returns `{"messages": [{"role": "assistant", "content": "I encountered an
error and couldn't process your request."}]}` as a value — no exception
propagates to the caller. -/
theorem mcs_agent_callback_error_contained (messages : List Message) (backend : BackendBehavior)
    (hne : messages ≠ []) (hraise : guardedRegionRaises backend = true) :
    mcs_agent_callback messages backend =
      .ok { messages := [{ role := "assistant", content := some errorFallback }] } := by
  obtain ⟨last, _, heq⟩ := mcs_agent_callback_eq messages backend hne
  rw [heq, respond_core_raises last.2 backend hraise,
    ensure_content_of_some _ errorFallback rfl]

theorem mcs_agent_callback_error_contained_witness :
    ([({ role := "user", content := "Hello" } : Message)] ≠ []) ∧
    guardedRegionRaises (.startRaise "ConnectionError") = true ∧
    mcs_agent_callback [{ role := "user", content := "Hello" }] (.startRaise "ConnectionError") =
      .ok { messages := [{ role := "assistant", content := some errorFallback }] } :=
  ⟨by decide, rfl,
    mcs_agent_callback_error_contained [{ role := "user", content := "Hello" }]
      (.startRaise "ConnectionError") (by decide) rfl⟩

/-- C2: when session open and ask succeed and the backend returns response
events, the adapter's content is the concatenation, in receipt order, of the
text fields of exactly the message-typed events (non-message events
contribute nothing), with role `"assistant"`, provided the concatenation is
non-empty (and every message-typed event actually carries a text, so the
extraction itself does not raise). -/
theorem mcs_agent_callback_concat_of_messages (messages : List Message) (acts : List Activity)
    (hne : messages ≠ [])
    (htext : ∀ a ∈ acts, a.ty = ActivityTy.message → a.text ≠ none)
    (hnonempty : concatMessageTexts acts ≠ "") :
    mcs_agent_callback messages (.ok acts) =
      .ok { messages := [{ role := "assistant", content := some (concatMessageTexts acts) }] } := by
  obtain ⟨last, _, heq⟩ := mcs_agent_callback_eq messages (.ok acts) hne
  rw [heq]
  simp [respond_core, joinTexts_ok acts htext, hnonempty, ensure_content]

theorem mcs_agent_callback_concat_of_messages_witness :
    (concatMessageTexts
        [{ ty := ActivityTy.message, text := some "Hi " },
         { ty := ActivityTy.typing, text := none },
         { ty := ActivityTy.message, text := some "there" }] = "Hi there") ∧
    mcs_agent_callback [{ role := "user", content := "Hello" }]
        (.ok [{ ty := ActivityTy.message, text := some "Hi " },
              { ty := ActivityTy.typing, text := none },
              { ty := ActivityTy.message, text := some "there" }]) =
      .ok { messages := [{ role := "assistant", content := some (concatMessageTexts
          [{ ty := ActivityTy.message, text := some "Hi " },
           { ty := ActivityTy.typing, text := none },
           { ty := ActivityTy.message, text := some "there" }]) }] } :=
  ⟨by decide,
    mcs_agent_callback_concat_of_messages [{ role := "user", content := "Hello" }]
      [{ ty := ActivityTy.message, text := some "Hi " },
       { ty := ActivityTy.typing, text := none },
       { ty := ActivityTy.message, text := some "there" }]
      (by decide) (by decide) (by decide)⟩

/-- C3: for every invocation on a non-empty conversation-turn sequence,
whatever the backend does, the content of the single returned message is a
non-null string (and the role is `"assistant"`). -/
theorem mcs_agent_callback_content_nonnull (messages : List Message) (backend : BackendBehavior)
    (hne : messages ≠ []) :
    ∃ s : String, mcs_agent_callback messages backend =
      .ok { messages := [{ role := "assistant", content := some s }] } := by
  obtain ⟨last, _, heq⟩ := mcs_agent_callback_eq messages backend hne
  obtain ⟨t, ht⟩ := respond_core_shape last.2 backend
  exact ⟨t, by rw [heq, ht, ensure_content_of_some _ t rfl]⟩

theorem mcs_agent_callback_content_nonnull_witness :
    ([({ role := "user", content := "Hello" } : Message)] ≠ []) ∧
    ∃ s : String, mcs_agent_callback [{ role := "user", content := "Hello" }] (.ok []) =
      .ok { messages := [{ role := "assistant", content := some s }] } :=
  ⟨by decide,
    mcs_agent_callback_content_nonnull [{ role := "user", content := "Hello" }] (.ok []) (by decide)⟩

/-- C4: when session open and ask succeed but the concatenation of
message-typed event texts is empty, the adapter returns the fixed fallback
`"I cannot provide a response to this request."` with role `"assistant"`
inside the message envelope. -/
theorem mcs_agent_callback_empty_content_fallback (messages : List Message) (acts : List Activity)
    (hne : messages ≠ [])
    (htext : ∀ a ∈ acts, a.ty = ActivityTy.message → a.text ≠ none)
    (hempty : concatMessageTexts acts = "") :
    mcs_agent_callback messages (.ok acts) =
      .ok { messages := [{ role := "assistant", content := some emptyFallback }] } := by
  obtain ⟨last, _, heq⟩ := mcs_agent_callback_eq messages (.ok acts) hne
  rw [heq]
  simp [respond_core, joinTexts_ok acts htext, hempty, ensure_content]

theorem mcs_agent_callback_empty_content_fallback_witness :
    (concatMessageTexts [{ ty := ActivityTy.typing, text := none }] = "") ∧
    mcs_agent_callback [{ role := "user", content := "Hello" }]
        (.ok [{ ty := ActivityTy.typing, text := none }]) =
      .ok { messages := [{ role := "assistant", content := some emptyFallback }] } :=
  ⟨by decide,
    mcs_agent_callback_empty_content_fallback [{ role := "user", content := "Hello" }]
      [{ ty := ActivityTy.typing, text := none }] (by decide) (by decide) (by decide)⟩

/-- C8: on an empty conversation-turn sequence, the adapter raises
(`IndexError` from indexing the empty re-packed list, before the `try`
block begins) instead of returning any fallback reply — the never-raises
containment covers only the steps from connection-settings construction
onward. -/
theorem mcs_agent_callback_empty_messages_raises (backend : BackendBehavior) :
    mcs_agent_callback [] backend = .error "IndexError: list index out of range" := rfl

/-- C9, counterexample to the claim as stated: the returned content CAN be
the string `"No response available."` — namely when the backend itself
returns exactly that text as a message event — even though the final
defensive guard did not fire. -/
theorem mcs_agent_callback_no_response_counterexample :
    mcs_agent_callback [{ role := "user", content := "Hello" }]
        (.ok [{ ty := ActivityTy.message, text := some noResponseFallback }]) =
      .ok { messages := [{ role := "assistant", content := some noResponseFallback }] } := by
  rfl

/-- C9 (amended): for every invocation on a non-empty conversation-turn
sequence, the final defensive null-guard never fires: the response built
before the guard already has non-`None` content on every path, the guard is
the identity there, and the adapter returns exactly that pre-guard response
(so the guard's substitution `"No response available."` is never applied —
though the backend may of course itself produce that literal text). -/
theorem mcs_agent_callback_guard_never_fires (messages : List Message) (backend : BackendBehavior)
    (hne : messages ≠ []) :
    ∃ last : String × String,
      (messages.map (fun m => (m.role, m.content))).getLast? = some last ∧
      (respond_core last.2 backend).content ≠ none ∧
      ensure_content (respond_core last.2 backend) = respond_core last.2 backend ∧
      mcs_agent_callback messages backend = .ok { messages := [respond_core last.2 backend] } := by
  obtain ⟨last, hl, heq⟩ := mcs_agent_callback_eq messages backend hne
  obtain ⟨t, ht⟩ := respond_core_shape last.2 backend
  refine ⟨last, hl, ?_, ?_, ?_⟩
  · rw [ht]; simp
  · exact ensure_content_of_some _ t (by rw [ht])
  · rw [heq, ensure_content_of_some _ t (by rw [ht])]

theorem mcs_agent_callback_guard_never_fires_witness :
    ([({ role := "user", content := "Hello" } : Message)] ≠ []) ∧
    ∃ last : String × String,
      ([({ role := "user", content := "Hello" } : Message)].map
        (fun m => (m.role, m.content))).getLast? = some last ∧
      (respond_core last.2 (.askRaise "timeout")).content ≠ none ∧
      ensure_content (respond_core last.2 (.askRaise "timeout")) =
        respond_core last.2 (.askRaise "timeout") ∧
      mcs_agent_callback [{ role := "user", content := "Hello" }] (.askRaise "timeout") =
        .ok { messages := [respond_core last.2 (.askRaise "timeout")] } :=
  ⟨by decide,
    mcs_agent_callback_guard_never_fires [{ role := "user", content := "Hello" }]
      (.askRaise "timeout") (by decide)⟩

/-! ## Data model of the orchestrator (`src/red_team_scan.py`) -/

/-- Modelled from the spec: the external engine's `AttackStrategy`
enumeration (`azure.ai.evaluation.red_team.AttackStrategy`, not part of this
repository) — the three named difficulty tiers the source special-cases,
plus the engine's other named members (e.g. `named "Flip"`), opaque to this
program. -/
inductive AttackStrategy where
  | EASY
  | MODERATE
  | DIFFICULT
  | named (s : String)
deriving DecidableEq, Repr

/-- Modelled from the spec: the external engine's `RiskCategory`
enumeration (not part of this repository) — the two default category names
and the engine's other named members, opaque to this program. -/
inductive RiskCategory where
  | Violence
  | HateUnfairness
  | named (s : String)
deriving DecidableEq, Repr

/-- Python's `str.upper()` on the ASCII names this configuration deals in:
uppercase every character. -/
def pyUpper (s : String) : String := String.mk (s.data.map Char.toUpper)

/-- The `AttributeError` Python raises for `getattr(AttackStrategy, s)` on an
absent member. -/
def attributeErrorMsg (s : String) : String :=
  "AttributeError: type object 'AttackStrategy' has no attribute '" ++ s ++ "'"

/-- `parse_attack_strategies` from `src/red_team_scan.py`. The three tier
names are matched on `strategy_str.upper()`; every other name goes through
`getattr(AttackStrategy, strategy_str)` — the case-sensitive symbolic lookup
`lookup`, an explicit parameter standing for the engine's member table —
which raises `AttributeError` when the attribute is absent. The loop appends
in order and the first raise abandons the partial list. -/
def parse_attack_strategies (lookup : String → Option AttackStrategy) :
    List String → Except String (List AttackStrategy)
  | [] => .ok []
  | strategy_str :: rest =>
    if pyUpper strategy_str = "EASY" then
      (parse_attack_strategies lookup rest).map (AttackStrategy.EASY :: ·)
    else if pyUpper strategy_str = "MODERATE" then
      (parse_attack_strategies lookup rest).map (AttackStrategy.MODERATE :: ·)
    else if pyUpper strategy_str = "DIFFICULT" then
      (parse_attack_strategies lookup rest).map (AttackStrategy.DIFFICULT :: ·)
    else
      match lookup strategy_str with
      | none => .error (attributeErrorMsg strategy_str)
      | some a => (parse_attack_strategies lookup rest).map (a :: ·)

/-- The per-element resolution rule as the spec states it: case-insensitive
match for the three tier names, case-sensitive symbolic lookup otherwise,
failure naming the strategy when neither applies. -/
def resolveStrategySpec (lookup : String → Option AttackStrategy) (s : String) :
    Except String AttackStrategy :=
  if pyUpper s = "EASY" then .ok .EASY
  else if pyUpper s = "MODERATE" then .ok .MODERATE
  else if pyUpper s = "DIFFICULT" then .ok .DIFFICULT
  else
    match lookup s with
    | none => .error (attributeErrorMsg s)
    | some a => .ok a

/-- Modelled from the spec: the engine's member table restricted to the
members this repository's spec mentions by name (the three tiers and the
default strategy `Flip`). -/
def engineStrategyAttr : String → Option AttackStrategy
  | "EASY" => some .EASY
  | "MODERATE" => some .MODERATE
  | "DIFFICULT" => some .DIFFICULT
  | "Flip" => some (.named "Flip")
  | _ => none

/-- The keyword arguments `create_red_team` passes to the engine's `RedTeam`
constructor, each `Option`al because Python simply omits the parameters not
passed (the opaque credential argument is elided). -/
structure RedTeamArgs where
  azure_ai_project : String
  custom_attack_seed_prompts : Option String
  risk_categories : Option (List RiskCategory)
  num_objectives : Option Int
deriving DecidableEq, Repr

/-- `create_red_team` from `src/red_team_scan.py`, with `os.path.exists` as
the explicit `fileExists` parameter. The guard is Python's
`if custom_prompts_path and os.path.exists(custom_prompts_path)`: an absent
(`None`) or empty path is falsy and short-circuits the existence check. -/
def create_red_team (fileExists : String → Bool) (project_endpoint : String)
    (risk_categories : List RiskCategory) (num_objectives : Int)
    (custom_prompts_path : Option String) : RedTeamArgs :=
  if (match custom_prompts_path with
      | none => false
      | some p => !(p == "") && fileExists p) then
    { azure_ai_project := project_endpoint
      custom_attack_seed_prompts := custom_prompts_path
      risk_categories := none
      num_objectives := none }
  else
    { azure_ai_project := project_endpoint
      custom_attack_seed_prompts := none
      risk_categories := some risk_categories
      num_objectives := some num_objectives }

/-- The `mcs_agent` section of the configuration as
`config_data.get("mcs_agent", {}).get(field)` sees each field: absent
(`None`) or present with a string value. -/
structure McsAgentSection where
  tenant_id : Option String
  app_client_id : Option String
  environment_id : Option String
  agent_identifier : Option String
deriving DecidableEq, Repr

/-- The `McsAgentConfig` dataclass from `src/targets/mcs_agent_callback.py`. -/
structure McsAgentConfig where
  tenant_id : String
  app_client_id : String
  environment_id : String
  agent_identifier : String
deriving DecidableEq, Repr

/-- Python truthiness of `Optional[str]`: `None` and `""` are falsy. -/
def optStrTruthy : Option String → Bool
  | none => false
  | some s => !(s == "")

/-- `create_mcs_agent_config` from `src/red_team_scan.py`: `None` unless all
four fields are present and non-empty (the `all([...])` truthiness check);
otherwise the dataclass built from the four values (the `getD ""` defaults
are never exercised — the guard guarantees every field is `some`). -/
def create_mcs_agent_config (mcs_config : McsAgentSection) : Option McsAgentConfig :=
  if optStrTruthy mcs_config.tenant_id && optStrTruthy mcs_config.app_client_id &&
      optStrTruthy mcs_config.environment_id && optStrTruthy mcs_config.agent_identifier then
    some { tenant_id := mcs_config.tenant_id.getD ""
           app_client_id := mcs_config.app_client_id.getD ""
           environment_id := mcs_config.environment_id.getD ""
           agent_identifier := mcs_config.agent_identifier.getD "" }
  else none

/-- The constructed target: `McsAgentCallbackTarget(config).get_target()`,
i.e. the callback closed over its `McsAgentConfig`. -/
structure McsTarget where
  config : McsAgentConfig
deriving DecidableEq, Repr

/-- `create_target` from `src/red_team_scan.py`: only the type
`"mcs_agent_callback"` is supported, and it requires a truthy
`mcs_agent_config` (`None` is falsy; a dataclass instance is always
truthy). -/
def create_target (target_type : String) (mcs_agent_config : Option McsAgentConfig) :
    Except String McsTarget :=
  if target_type = "mcs_agent_callback" then
    match mcs_agent_config with
    | none => .error "ValueError: MCS Agent config is required for MCS Agent callback target"
    | some cfg => .ok { config := cfg }
  else
    .error ("ValueError: Unsupported target type: " ++ target_type ++
      ". Only 'mcs_agent_callback' is supported.")

/-! ## Claims about strategy parsing and construction -/

theorem parse_attack_strategies_eq_mapM (lookup : String → Option AttackStrategy)
    (ss : List String) :
    parse_attack_strategies lookup ss = ss.mapM (resolveStrategySpec lookup) := by
  induction ss with
  | nil => rfl
  | cons s rest ih =>
    rw [List.mapM_cons]
    by_cases h1 : pyUpper s = "EASY"
    · simp only [parse_attack_strategies, resolveStrategySpec, h1, if_true, ih]
      cases hm : rest.mapM (resolveStrategySpec lookup) <;>
        simp [hm, Except.map, Except.bind, Except.pure, Bind.bind, Pure.pure]
    · by_cases h2 : pyUpper s = "MODERATE"
      · simp only [parse_attack_strategies, resolveStrategySpec, h1, h2, if_true, if_false, ih]
        cases hm : rest.mapM (resolveStrategySpec lookup) <;>
          simp [hm, Except.map, Except.bind, Except.pure, Bind.bind, Pure.pure]
      · by_cases h3 : pyUpper s = "DIFFICULT"
        · simp only [parse_attack_strategies, resolveStrategySpec, h1, h2, h3, if_true,
            if_false, ih]
          cases hm : rest.mapM (resolveStrategySpec lookup) <;>
            simp [hm, Except.map, Except.bind, Except.pure, Bind.bind, Pure.pure]
        · simp only [parse_attack_strategies, resolveStrategySpec, h1, h2, h3, if_false, ih]
          cases hl : lookup s with
          | none => simp [Except.bind, Bind.bind]
          | some a =>
            cases hm : rest.mapM (resolveStrategySpec lookup) <;>
              simp [hm, Except.map, Except.bind, Except.pure, Bind.bind, Pure.pure]

/-- C6: strategy-name parsing resolves a name equal to EASY, MODERATE or
DIFFICULT case-insensitively to the corresponding tier, resolves every other
name by case-sensitive symbolic lookup in the engine's enumeration (modelled
by the `lookup` parameter), fails with an `AttributeError` naming the
strategy when neither applies, and in particular `["easy", "Flip"]` resolves
to `[EASY, Flip]`. -/
theorem parse_attack_strategies_resolution :
    (∀ (lookup : String → Option AttackStrategy) (ss : List String),
      parse_attack_strategies lookup ss = ss.mapM (resolveStrategySpec lookup)) ∧
    (∀ (lookup : String → Option AttackStrategy) (s : String),
      pyUpper s ≠ "EASY" → pyUpper s ≠ "MODERATE" → pyUpper s ≠ "DIFFICULT" →
      lookup s = none →
      parse_attack_strategies lookup [s] = .error (attributeErrorMsg s)) ∧
    parse_attack_strategies engineStrategyAttr ["easy", "Flip"] =
      .ok [AttackStrategy.EASY, AttackStrategy.named "Flip"] := by
  refine ⟨parse_attack_strategies_eq_mapM, ?_, ?_⟩
  · intro lookup s h1 h2 h3 hl
    simp [parse_attack_strategies, h1, h2, h3, hl]
  · rfl

theorem parse_attack_strategies_resolution_witness :
    (pyUpper "Bogus" ≠ "EASY") ∧ (pyUpper "Bogus" ≠ "MODERATE") ∧
    (pyUpper "Bogus" ≠ "DIFFICULT") ∧ (engineStrategyAttr "Bogus" = none) ∧
    parse_attack_strategies engineStrategyAttr ["Bogus"] =
      .error (attributeErrorMsg "Bogus") :=
  ⟨by decide, by decide, by decide, rfl,
    parse_attack_strategies_resolution.2.1 engineStrategyAttr "Bogus"
      (by decide) (by decide) (by decide) rfl⟩

/-- C7: the `RedTeam` constructor is invoked in exactly one of two mutually
exclusive modes: when a custom-prompts path is configured (truthy) and the
file exists, with the custom seed prompts and without risk categories or
objective count; otherwise with the risk categories and objective count and
without custom prompts — never with both sets of parameters. -/
theorem create_red_team_exclusive_modes (fileExists : String → Bool)
    (project_endpoint : String) (risk_categories : List RiskCategory)
    (num_objectives : Int) (custom_prompts_path : Option String) :
    ((∃ p, custom_prompts_path = some p ∧ p ≠ "" ∧ fileExists p = true) →
      create_red_team fileExists project_endpoint risk_categories num_objectives
          custom_prompts_path =
        { azure_ai_project := project_endpoint
          custom_attack_seed_prompts := custom_prompts_path
          risk_categories := none
          num_objectives := none }) ∧
    ((¬ ∃ p, custom_prompts_path = some p ∧ p ≠ "" ∧ fileExists p = true) →
      create_red_team fileExists project_endpoint risk_categories num_objectives
          custom_prompts_path =
        { azure_ai_project := project_endpoint
          custom_attack_seed_prompts := none
          risk_categories := some risk_categories
          num_objectives := some num_objectives }) := by
  constructor
  · rintro ⟨p, hp, hne, hex⟩
    subst hp
    simp [create_red_team, hne, hex]
  · intro hno
    cases hcp : custom_prompts_path with
    | none => simp [create_red_team]
    | some p =>
      by_cases hne : p = ""
      · simp [create_red_team, hne]
      · have hex : fileExists p = false := by
          by_contra hc
          exact hno ⟨p, hcp, hne, by revert hc; cases fileExists p <;> simp⟩
        simp [create_red_team, hne, hex]

theorem create_red_team_exclusive_modes_witness :
    (∃ p, (some "prompts.json" : Option String) = some p ∧ p ≠ "" ∧
      (fun _ : String => true) p = true) ∧
    create_red_team (fun _ => true) "https://endpoint" [RiskCategory.Violence] 1
        (some "prompts.json") =
      { azure_ai_project := "https://endpoint"
        custom_attack_seed_prompts := some "prompts.json"
        risk_categories := none
        num_objectives := none } :=
  ⟨⟨"prompts.json", rfl, by decide, rfl⟩,
    (create_red_team_exclusive_modes (fun _ => true) "https://endpoint"
        [RiskCategory.Violence] 1 (some "prompts.json")).1
      ⟨"prompts.json", rfl, by decide, rfl⟩⟩

/-- C10: when any of the four `mcs_agent` fields is absent or the empty
string, `create_mcs_agent_config` returns `None` (the target counts as
unconfigured), and `create_target` on the supported type then fails with an
error instead of constructing an adapter. -/
theorem create_mcs_agent_config_incomplete (mcs_config : McsAgentSection)
    (h : mcs_config.tenant_id = none ∨ mcs_config.tenant_id = some "" ∨
         mcs_config.app_client_id = none ∨ mcs_config.app_client_id = some "" ∨
         mcs_config.environment_id = none ∨ mcs_config.environment_id = some "" ∨
         mcs_config.agent_identifier = none ∨ mcs_config.agent_identifier = some "") :
    create_mcs_agent_config mcs_config = none ∧
    create_target "mcs_agent_callback" (create_mcs_agent_config mcs_config) =
      .error "ValueError: MCS Agent config is required for MCS Agent callback target" := by
  have hnone : create_mcs_agent_config mcs_config = none := by
    rcases h with h|h|h|h|h|h|h|h <;> simp [create_mcs_agent_config, optStrTruthy, h]
  exact ⟨hnone, by rw [hnone]; rfl⟩

theorem create_mcs_agent_config_incomplete_witness :
    (({ tenant_id := none, app_client_id := some "app-id",
        environment_id := some "env-id", agent_identifier := some "agent-id" } :
        McsAgentSection).tenant_id = none ∨
      ({ tenant_id := none, app_client_id := some "app-id",
         environment_id := some "env-id", agent_identifier := some "agent-id" } :
         McsAgentSection).tenant_id = some "" ∨
      ({ tenant_id := none, app_client_id := some "app-id",
         environment_id := some "env-id", agent_identifier := some "agent-id" } :
         McsAgentSection).app_client_id = none ∨
      ({ tenant_id := none, app_client_id := some "app-id",
         environment_id := some "env-id", agent_identifier := some "agent-id" } :
         McsAgentSection).app_client_id = some "" ∨
      ({ tenant_id := none, app_client_id := some "app-id",
         environment_id := some "env-id", agent_identifier := some "agent-id" } :
         McsAgentSection).environment_id = none ∨
      ({ tenant_id := none, app_client_id := some "app-id",
         environment_id := some "env-id", agent_identifier := some "agent-id" } :
         McsAgentSection).environment_id = some "" ∨
      ({ tenant_id := none, app_client_id := some "app-id",
         environment_id := some "env-id", agent_identifier := some "agent-id" } :
         McsAgentSection).agent_identifier = none ∨
      ({ tenant_id := none, app_client_id := some "app-id",
         environment_id := some "env-id", agent_identifier := some "agent-id" } :
         McsAgentSection).agent_identifier = some "") ∧
    create_mcs_agent_config
        { tenant_id := none, app_client_id := some "app-id",
          environment_id := some "env-id", agent_identifier := some "agent-id" } = none ∧
    create_target "mcs_agent_callback"
        (create_mcs_agent_config
          { tenant_id := none, app_client_id := some "app-id",
            environment_id := some "env-id", agent_identifier := some "agent-id" }) =
      .error "ValueError: MCS Agent config is required for MCS Agent callback target" :=
  ⟨Or.inl rfl,
    create_mcs_agent_config_incomplete
      { tenant_id := none, app_client_id := some "app-id",
        environment_id := some "env-id", agent_identifier := some "agent-id" }
      (Or.inl rfl)⟩

/-! ## Environment-variable substitution
(`substitute_env_vars` and `load_config` from `src/red_team_scan.py`)

`re.sub(r'\$\x7b([^\x7d]+)\x7d', replace_func, text)` scans the text left to
right. At each position the pattern matches when the characters are `$`,
then an open brace, then a greedy non-empty run of characters other than a
close brace (everything up to the first close brace), then the close brace;
`replace_func` resolves the captured name against the environment and raises
`ValueError` naming it when absent. Unmatched positions are copied through
unchanged, and replacement values are emitted without being rescanned. -/

/-- The capture group — the greedy non-empty run of non-close-brace
characters read from the characters following the opening `$`-brace pair. -/
def placeholderName (cs : List Char) : List Char := cs.takeWhile (fun d => d ≠ '}')

/-- Whether the placeholder pattern matches at the head of `c :: cs`: `c` is
`$`, the next character opens a brace, the capture is non-empty, and a
closing brace follows it (the capture not running to the end of the input is
exactly the existence of the close brace, since it is greedy). -/
def placeholderAt (c : Char) (cs : List Char) : Bool :=
  c = '$' && cs.head? = some '{' && placeholderName cs.tail ≠ [] &&
    cs.tail.drop (placeholderName cs.tail).length ≠ []

/-- The scan of `re.sub` over the raw text, as characters: substitute each
match via the environment (failing like `replace_func` when a name is
absent), copy everything else through. -/
def substList (env : String → Option String) : List Char → Except String (List Char)
  | [] => .ok []
  | c :: rest =>
    if placeholderAt c rest then
      match env (String.mk (placeholderName rest.tail)) with
      | none => .error ("Environment variable '" ++ String.mk (placeholderName rest.tail) ++
          "' not found")
      | some v =>
        (substList env ((rest.tail.drop (placeholderName rest.tail).length).tail)).map
          (fun t => v.data ++ t)
    else
      (substList env rest).map (fun t => c :: t)
termination_by cs => cs.length
decreasing_by
  · simp only [List.length_cons, List.length_tail, List.length_drop]
    omega
  · simp only [List.length_cons]
    omega

/-- `substitute_env_vars(text)` from `src/red_team_scan.py`, with the
process environment (`os.getenv`) as an explicit parameter. -/
def substitute_env_vars (env : String → Option String) (text : String) :
    Except String String :=
  (substList env text.data).map String.mk

/-- `load_config` after the file read: substitute environment variables in
the raw content, then parse the processed content as JSON. The parser is an
explicit parameter with an opaque result type; a substitution failure
propagates before any parsing happens. -/
def load_config {Cfg : Type} (parseJson : String → Except String Cfg)
    (env : String → Option String) (raw_content : String) : Except String Cfg :=
  match substitute_env_vars env raw_content with
  | .error e => .error e
  | .ok processed_content => parseJson processed_content

/-- A decomposition of a configuration text into literal chunks and
placeholders: `var name` denotes the placeholder written as `$`, an open
brace, `name`, and a close brace. -/
inductive ConfigPiece where
  | lit (s : String)
  | var (name : String)
deriving DecidableEq, Repr

/-- The text a piece list denotes. -/
def renderPieces : List ConfigPiece → String
  | [] => ""
  | .lit s :: ps => s ++ renderPieces ps
  | .var n :: ps => "$\x7b" ++ n ++ "\x7d" ++ renderPieces ps

/-- Well-formedness of one piece: a literal chunk contains no `$` (so it can
never start a placeholder match), and a placeholder name is non-empty and
contains no close brace (so the placeholder is matched exactly as
written). -/
def pieceWF : ConfigPiece → Prop
  | .lit s => '$' ∉ s.data
  | .var n => n.data ≠ [] ∧ '}' ∉ n.data

instance (p : ConfigPiece) : Decidable (pieceWF p) :=
  match p with
  | .lit s => inferInstanceAs (Decidable ('$' ∉ s.data))
  | .var n => inferInstanceAs (Decidable (n.data ≠ [] ∧ '}' ∉ n.data))

/-- The substitution as the spec states it: each placeholder replaced by the
literal environment value of its name, literals kept, failing on the first
unresolvable name. -/
def substPieces (env : String → Option String) : List ConfigPiece → Except String String
  | [] => .ok ""
  | .lit s :: ps => (substPieces env ps).map (fun t => s ++ t)
  | .var n :: ps =>
    match env n with
    | none => .error ("Environment variable '" ++ n ++ "' not found")
    | some v => (substPieces env ps).map (fun t => v ++ t)

/-! ## Helper lemmas about the substitution -/

theorem placeholderAt_false_of_ne (c : Char) (cs : List Char) (h : c ≠ '$') :
    placeholderAt c cs = false := by
  simp [placeholderAt, h]

theorem substList_cons_of_no_match (env : String → Option String) (c : Char)
    (rest : List Char) (h : placeholderAt c rest = false) :
    substList env (c :: rest) = (substList env rest).map (fun t => c :: t) := by
  rw [substList, h]
  simp

theorem substList_lit_prefix (env : String → Option String) (s t : List Char)
    (h : '$' ∉ s) :
    substList env (s ++ t) = (substList env t).map (fun u => s ++ u) := by
  induction s with
  | nil =>
    simp only [List.nil_append]
    cases hv : substList env t <;> simp [hv, Except.map]
  | cons c s ih =>
    have hc : c ≠ '$' := fun hc => h (by rw [← hc]; exact List.mem_cons_self c s)
    rw [List.cons_append,
      substList_cons_of_no_match env c (s ++ t) (placeholderAt_false_of_ne _ _ hc),
      ih (fun hm => h (List.mem_cons_of_mem _ hm))]
    cases hv : substList env t <;> simp [hv, Except.map]

theorem takeWhile_all_append (p : Char → Bool) (l : List Char) (b : Char) (t : List Char)
    (hl : ∀ a ∈ l, p a = true) (hb : p b = false) :
    (l ++ b :: t).takeWhile p = l := by
  induction l with
  | nil => simp [List.takeWhile_cons, hb]
  | cons a l ih =>
    have ha : p a = true := hl a (List.mem_cons_self _ _)
    simp [List.takeWhile_cons, ha, ih (fun x hx => hl x (List.mem_cons_of_mem _ hx))]

theorem substList_var_prefix (env : String → Option String) (n : String) (t : List Char)
    (hn : n.data ≠ []) (hbr : '}' ∉ n.data) :
    substList env ('$' :: '{' :: (n.data ++ '}' :: t)) =
      match env n with
      | none => .error ("Environment variable '" ++ n ++ "' not found")
      | some v => (substList env t).map (fun u => v.data ++ u) := by
  obtain ⟨nd⟩ := n
  have hall : ∀ a ∈ nd, (decide (a ≠ '}')) = true := by
    intro a ha
    simp only [decide_eq_true_eq]
    exact fun he => hbr (by rw [he] at ha; exact ha)
  have hname : placeholderName (nd ++ '}' :: t) = nd := by
    unfold placeholderName
    exact takeWhile_all_append _ nd '}' t hall (by simp)
  have hdrop : (nd ++ '}' :: t).drop nd.length = '}' :: t := List.drop_left nd ('}' :: t)
  have hat : placeholderAt '$' ('{' :: (nd ++ '}' :: t)) = true := by
    simp only [placeholderAt, List.tail_cons, hname, hdrop]
    simp [hn]
  rw [substList, hat]
  simp only [if_true, List.tail_cons, hname, hdrop]

theorem strData_append (s t : String) : (s ++ t).data = s.data ++ t.data := rfl

theorem substList_renders (env : String → Option String) (ps : List ConfigPiece)
    (hwf : ∀ p ∈ ps, pieceWF p) :
    substList env (renderPieces ps).data = (substPieces env ps).map String.data := by
  induction ps with
  | nil => simp [renderPieces, substPieces, substList, Except.map]
  | cons p ps ih =>
    have hps : ∀ q ∈ ps, pieceWF q := fun q hq => hwf q (List.mem_cons_of_mem _ hq)
    have ihe := ih hps
    cases p with
    | lit s =>
      have hs : '$' ∉ s.data := hwf (.lit s) (List.mem_cons_self _ _)
      have hdata : (renderPieces (ConfigPiece.lit s :: ps)).data =
          s.data ++ (renderPieces ps).data := rfl
      rw [hdata, substList_lit_prefix env s.data (renderPieces ps).data hs, ihe]
      cases hv : substPieces env ps <;>
        simp [substPieces, hv, Except.map, strData_append]
    | var n =>
      obtain ⟨hnd, hbr⟩ := hwf (.var n) (List.mem_cons_self _ _)
      have hdata : (renderPieces (ConfigPiece.var n :: ps)).data =
          '$' :: '{' :: (n.data ++ '}' :: (renderPieces ps).data) := by
        simp only [renderPieces, strData_append, List.append_assoc]
        rfl
      rw [hdata, substList_var_prefix env n (renderPieces ps).data hnd hbr]
      cases he : env n with
      | none => simp [substPieces, he, Except.map]
      | some v =>
        rw [ihe]
        cases hv : substPieces env ps <;>
          simp [substPieces, he, hv, Except.map, strData_append]

theorem substitute_env_vars_refines_pieces (env : String → Option String)
    (ps : List ConfigPiece) (hwf : ∀ p ∈ ps, pieceWF p) :
    substitute_env_vars env (renderPieces ps) = substPieces env ps := by
  unfold substitute_env_vars
  rw [substList_renders env ps hwf]
  cases hv : substPieces env ps <;> simp [hv, Except.map]

theorem substPieces_error_of_missing (env : String → Option String)
    (ps : List ConfigPiece) (h : ∃ n, ConfigPiece.var n ∈ ps ∧ env n = none) :
    ∃ n, ConfigPiece.var n ∈ ps ∧ env n = none ∧
      substPieces env ps = .error ("Environment variable '" ++ n ++ "' not found") := by
  induction ps with
  | nil =>
    obtain ⟨n, hn, _⟩ := h
    simp at hn
  | cons p ps ih =>
    cases p with
    | lit s =>
      obtain ⟨n, hn, he⟩ := h
      have hn2 : ConfigPiece.var n ∈ ps := by
        rcases List.mem_cons.mp hn with h1 | h1
        · exact absurd h1 (by simp)
        · exact h1
      obtain ⟨m, hm, hem, hsub⟩ := ih ⟨n, hn2, he⟩
      exact ⟨m, List.mem_cons_of_mem _ hm, hem,
        by simp [substPieces, hsub, Except.map]⟩
    | var n0 =>
      cases he0 : env n0 with
      | none => exact ⟨n0, List.mem_cons_self _ _, he0, by simp [substPieces, he0]⟩
      | some v =>
        obtain ⟨n, hn, he⟩ := h
        have hn2 : ConfigPiece.var n ∈ ps := by
          rcases List.mem_cons.mp hn with h1 | h1
          · injection h1 with h2
            rw [h2] at he
            rw [he] at he0
            exact absurd he0 (by simp)
          · exact h1
        obtain ⟨m, hm, hem, hsub⟩ := ih ⟨n, hn2, he⟩
        exact ⟨m, List.mem_cons_of_mem _ hm, hem,
          by simp [substPieces, he0, hsub, Except.map]⟩

/-- C5: environment-variable substitution is all-or-nothing and happens on
the raw text before JSON parsing: (i) on a well-formed decomposition of the
text whose placeholders are all matched as written, the result is exactly
the text with each placeholder replaced by the literal environment value of
its name (and in particular fails exactly when some name is unresolvable);
(ii) if any placeholder's name is unset in the environment, substitution
fails with a `ValueError` naming an unset placeholder of the text, and no
partially substituted text is returned; (iii) a substitution failure makes
`load_config` fail with that same error for every JSON parser — no
partially substituted text ever reaches the parser. -/
theorem substitute_env_vars_all_or_nothing :
    (∀ (env : String → Option String) (ps : List ConfigPiece),
      (∀ p ∈ ps, pieceWF p) →
      substitute_env_vars env (renderPieces ps) = substPieces env ps) ∧
    (∀ (env : String → Option String) (ps : List ConfigPiece),
      (∀ p ∈ ps, pieceWF p) →
      (∃ n, ConfigPiece.var n ∈ ps ∧ env n = none) →
      ∃ n, ConfigPiece.var n ∈ ps ∧ env n = none ∧
        substitute_env_vars env (renderPieces ps) =
          .error ("Environment variable '" ++ n ++ "' not found")) ∧
    (∀ (Cfg : Type) (parseJson : String → Except String Cfg)
      (env : String → Option String) (raw_content : String) (e : String),
      substitute_env_vars env raw_content = .error e →
      load_config parseJson env raw_content = .error e) := by
  refine ⟨substitute_env_vars_refines_pieces, ?_, ?_⟩
  · intro env ps hwf hmiss
    obtain ⟨n, hn, he, hsub⟩ := substPieces_error_of_missing env ps hmiss
    exact ⟨n, hn, he, by rw [substitute_env_vars_refines_pieces env ps hwf, hsub]⟩
  · intro Cfg parseJson env raw_content e hsub
    unfold load_config
    rw [hsub]

theorem substitute_env_vars_all_or_nothing_witness :
    (∀ p ∈ [ConfigPiece.lit "endpoint: ", ConfigPiece.var "PROJECT_URL"], pieceWF p) ∧
    (∃ n, ConfigPiece.var n ∈ [ConfigPiece.lit "endpoint: ", ConfigPiece.var "PROJECT_URL"] ∧
      (fun _ : String => (none : Option String)) n = none) ∧
    ∃ n, ConfigPiece.var n ∈ [ConfigPiece.lit "endpoint: ", ConfigPiece.var "PROJECT_URL"] ∧
      (fun _ : String => (none : Option String)) n = none ∧
      substitute_env_vars (fun _ => none)
          (renderPieces [ConfigPiece.lit "endpoint: ", ConfigPiece.var "PROJECT_URL"]) =
        .error ("Environment variable '" ++ n ++ "' not found") :=
  ⟨by decide, ⟨"PROJECT_URL", by decide, rfl⟩,
    substitute_env_vars_all_or_nothing.2.1 (fun _ => none)
      [ConfigPiece.lit "endpoint: ", ConfigPiece.var "PROJECT_URL"] (by decide)
      ⟨"PROJECT_URL", by decide, rfl⟩⟩
